import Mathlib

/-!
# Verification of the BFP vector algebra core of lib_xs3_math

This file gives a shallow embedding of the block floating-point (BFP) layer of
the library and proves/refutes the frozen specification claims about it.

Conventions of the embedding:
* 16-bit (resp. 32-bit) mantissas are integers `m : ℤ` with the intended range
  `-2^15 ≤ m ≤ 2^15 - 1` (resp. 31); machine arithmetic is made explicit through
  the saturation function `sat16` and the arithmetic shift `ashr`.
* A complex 16-bit BFP vector is, as in the C struct `bfp_complex_s16_t`, a pair
  of parallel mantissa lists together with the shared exponent and the recorded
  headroom.
* Functions whose C source is present in the repository are translated
  statement by statement.  Low-level kernels and parameter calculators whose
  implementation is not part of the sources (only their callers and unit tests
  are) are modelled from the specification's contracts; each such definition
  carries a doc comment starting with `Modelled from the spec:`.
-/

/-! ## Bit-size, count-leading-sign and headroom -/

/-- Fuel-driven binary size of a natural number: `natSizeAux fuel n` is the
number of bits needed to write `n`, provided `n ≤ fuel`.  Structural recursion
on the fuel keeps the function kernel-reducible. -/
def natSizeAux : ℕ → ℕ → ℕ
  | 0, _ => 0
  | fuel + 1, n => if n = 0 then 0 else natSizeAux fuel (n / 2) + 1

/-- Number of bits needed to write `n` in binary (`0` needs no bits). -/
def natSize (n : ℕ) : ℕ := natSizeAux n n

/-- `natSizeAux` computes the binary size whenever it has enough fuel. -/
theorem natSizeAux_le_iff (fuel n k : ℕ) (hf : n ≤ fuel) :
    natSizeAux fuel n ≤ k ↔ n < 2 ^ k := by
  induction fuel generalizing n k with
  | zero =>
    have hn : n = 0 := by omega
    subst hn
    simp only [natSizeAux]
    constructor
    · intro _
      positivity
    · intro _
      exact Nat.zero_le k
  | succ fuel ih =>
    by_cases hn : n = 0
    · subst hn
      simp only [natSizeAux, if_pos rfl]
      constructor
      · intro _
        positivity
      · intro _
        exact Nat.zero_le k
    · have hdiv : n / 2 ≤ fuel := by
        have h2 : n / 2 < n := Nat.div_lt_self (Nat.pos_of_ne_zero hn) (by norm_num)
        omega
      simp only [natSizeAux, if_neg hn]
      cases k with
      | zero =>
        simp only [pow_zero]
        omega
      | succ k =>
        rw [Nat.succ_le_succ_iff, ih (n / 2) k hdiv, pow_succ,
          Nat.div_lt_iff_lt_mul (by norm_num : 0 < 2)]

/-- Characterisation of `natSize`. -/
theorem natSize_le_iff (n k : ℕ) : natSize n ≤ k ↔ n < 2 ^ k :=
  natSizeAux_le_iff n n k le_rfl

/-- The number of bits needed for the integer `m` beyond the sign bit: the least
`k` with `-2^k ≤ m ≤ 2^k - 1`.  A signed `w`-bit integer can hold `m` iff
`intSize m ≤ w - 1`. -/
def intSize (m : ℤ) : ℕ := natSize (if 0 ≤ m then m.toNat else (-m - 1).toNat)

/-- `intSize` measures exactly the two's-complement ranges. -/
theorem intSize_le_iff (m : ℤ) (k : ℕ) :
    intSize m ≤ k ↔ (-(2 ^ k) ≤ m ∧ m ≤ 2 ^ k - 1) := by
  have hpow : ((2 ^ k : ℕ) : ℤ) = (2 : ℤ) ^ k := by push_cast; ring
  have hpos : (0 : ℤ) < 2 ^ k := by positivity
  unfold intSize
  rw [natSize_le_iff, ← Nat.cast_lt (α := ℤ), hpow]
  by_cases h : 0 ≤ m
  · rw [if_pos h, Int.toNat_of_nonneg h]
    revert hpos
    generalize (2 : ℤ) ^ k = A
    intro hpos
    omega
  · push_neg at h
    rw [if_neg (by omega), Int.toNat_of_nonneg (by omega : (0 : ℤ) ≤ -m - 1)]
    revert hpos
    generalize (2 : ℤ) ^ k = A
    intro hpos
    omega

/-- Count of leading sign bits of a 16-bit mantissa (the `CLS_S16` macro):
the sign bit itself plus all redundant copies of it. -/
def CLS_S16 (m : ℤ) : ℕ := 16 - intSize m

/-- Headroom of a 16-bit mantissa (the `HR_S16` macro): `CLS_S16 - 1`. -/
def HR_S16 (m : ℤ) : ℕ := 15 - intSize m

/-- Headroom of a 32-bit mantissa (the `HR_S32` macro). -/
def HR_S32 (m : ℤ) : ℕ := 31 - intSize m

/-- Headroom of a complex 16-bit mantissa pair (the `HR_C16` macro):
the minimum over the real and imaginary part. -/
def HR_C16 (re im : ℤ) : ℕ := min (HR_S16 re) (HR_S16 im)

/-- `HR_S16` is `CLS_S16 - 1`, with truncated subtraction. -/
theorem HR_S16_eq_CLS_sub_one (m : ℤ) : HR_S16 m = CLS_S16 m - 1 := by
  unfold HR_S16 CLS_S16
  omega

/-! ## Machine arithmetic: saturation and arithmetic shifts -/

/-- Saturation to the signed 16-bit bounds (spec §4.2: "Output saturation is at
the element type's bounds"). -/
def sat16 (x : ℤ) : ℤ := max (-32768) (min 32767 x)

/-- Arithmetic shift right by a signed amount: a negative amount is a left
shift.  Rounding is to negative infinity (spec §4.2), which over ℤ is floor
division by a power of two. -/
def ashr (m s : ℤ) : ℤ := if 0 ≤ s then m / 2 ^ s.toNat else m * 2 ^ (-s).toNat

/-- Value of mantissa `m` of exponent `e` re-expressed at exponent `a`. -/
def shiftToExp (m e a : ℤ) : ℤ := ashr m (a - e)

/-! ## Vector headroom -/

/-- Minimum headroom over a 16-bit mantissa list (an empty list has the maximal
headroom 15, the headroom of a zero mantissa). -/
def hr16_list (l : List ℤ) : ℕ := l.foldr (fun m h => min (HR_S16 m) h) 15

/-- Minimum headroom over a 32-bit complex mantissa list. -/
def hr32_pairs (l : List (ℤ × ℤ)) : ℕ :=
  l.foldr (fun p h => min (min (HR_S32 p.1) (HR_S32 p.2)) h) 31

/-- Modelled from the spec: the headroom kernel `xs3_vect_complex_s16_headroom`
is not among the sources; per §4.2 it returns the true minimum leading-sign-bit
count minus one over the real and imaginary mantissa arrays. -/
def xs3_vect_complex_s16_headroom (re im : List ℤ) : ℕ :=
  min (hr16_list re) (hr16_list im)

theorem hr16_list_le_15 (l : List ℤ) : hr16_list l ≤ 15 := by
  induction l with
  | nil => simp [hr16_list]
  | cons x xs ih =>
    simp only [hr16_list, List.foldr] at ih ⊢
    omega

/-! ## Parameter calculators (modelled from the spec §4.1)

The calculators' C sources are not part of the repository; only their callers
(`bfp_complex_s16.c`) and the unit test `test_bfp_sub_vect.c` are.  They are
modelled from the spec's contracts.  The add/sub model reproduces every vector
of `test_bfp_sub_vect_calc_params` (checked below the definition). -/

/-- Compile-time saturation policy `XS3_BFP_ALLOW_SATURATION` (spec §6); the
unit-test vectors for the add/sub calculator pin it to `false` (one guaranteed
headroom bit). -/
def XS3_BFP_ALLOW_SATURATION : Bool := false

/-- Modelled from the spec: `xs3_vect_add_sub_calc_params` (§4.1 Add/Subtract).
The least exponent at which either operand's worst-case mantissa keeps one
headroom bit is `max (b_exp - b_hr) (c_exp - c_hr) + 1`; with saturation
allowed, one bit tighter.  Returns `(a_exp, b_shr, c_shr)` with the shifts the
exponent differences.  Reproduces all vectors of
`test_bfp_sub_vect_calc_params`. -/
def xs3_vect_add_sub_calc_params (b_exp c_exp : ℤ) (b_hr c_hr : ℕ)
    (allow_sat : Bool) : ℤ × ℤ × ℤ :=
  let a_exp := max (b_exp - b_hr) (c_exp - c_hr) + (if allow_sat then 0 else 1)
  (a_exp, a_exp - b_exp, a_exp - c_exp)

/-- Modelled from the spec: the high-level wrapper `bfp_sub_vect_calc_params`
exercised by `test_bfp_sub_vect_calc_params`, which forwards to
`xs3_vect_add_sub_calc_params` with the compile-time saturation policy. -/
def bfp_sub_vect_calc_params (b_exp c_exp : ℤ) (b_hr c_hr : ℕ) : ℤ × ℤ × ℤ :=
  xs3_vect_add_sub_calc_params b_exp c_exp b_hr c_hr XS3_BFP_ALLOW_SATURATION

/-- The model reproduces the seven expected-output vectors of
`test_bfp_sub_vect_calc_params` in `src/test/unit_test/src/high/test_bfp_sub_vect.c`. -/
theorem bfp_sub_vect_calc_params_matches_unit_test :
    bfp_sub_vect_calc_params 0 0 0 0 = (1, 1, 1) ∧
    bfp_sub_vect_calc_params 5 5 1 1 = (5, 0, 0) ∧
    bfp_sub_vect_calc_params 0 0 1 0 = (1, 1, 1) ∧
    bfp_sub_vect_calc_params 10 10 0 1 = (11, 1, 1) ∧
    bfp_sub_vect_calc_params (-4) (-4) 15 15 = (-18, -14, -14) ∧
    bfp_sub_vect_calc_params (-14) (-4) 8 4 = (-7, 7, -3) := by
  decide

/-- Modelled from the spec: `xs3_vect_s16_scale_calc_params` (§4.1 Multiply,
real × real rule).  The smallest nonnegative post-multiply right-shift with no
saturation is `2·BITS − 1 − (b_hr + c_hr) − (BITS − 1) = 16 − (b_hr + c_hr)`;
with saturation allowed, one bit less.  Result exponent is
`b_exp + c_exp + sat`.  Returns `(a_exp, sat)`. -/
def xs3_vect_s16_scale_calc_params (b_exp c_exp : ℤ) (b_hr c_hr : ℕ)
    (allow_sat : Bool) : ℤ × ℤ :=
  let sat := max 0 (16 - (b_hr : ℤ) - (c_hr : ℤ) - (if allow_sat then 1 else 0))
  (b_exp + c_exp + sat, sat)

/-- Modelled from the spec: `xs3_vect_complex_s16_real_mul_calc_params`
(§4.1 Multiply, real × real rule, applied componentwise). -/
def xs3_vect_complex_s16_real_mul_calc_params (b_exp c_exp : ℤ) (b_hr c_hr : ℕ)
    (allow_sat : Bool) : ℤ × ℤ :=
  xs3_vect_s16_scale_calc_params b_exp c_exp b_hr c_hr allow_sat

/-- Modelled from the spec: `xs3_vect_complex_s16_complex_mul_calc_params`
(§4.1 Complex multiply): the real rule with one additional right-shift to cover
the add/sub of two products in each output component. -/
def xs3_vect_complex_s16_complex_mul_calc_params (b_exp c_exp : ℤ) (b_hr c_hr : ℕ)
    (allow_sat : Bool) : ℤ × ℤ :=
  let sat := max 0 (17 - (b_hr : ℤ) - (c_hr : ℤ) - (if allow_sat then 1 else 0))
  (b_exp + c_exp + sat, sat)

/-- Modelled from the spec: `xs3_vect_complex_mag_calc_params` (§4.1 Complex
magnitude): choose `b_shr` so that `|b|` fits in BITS bits after the shift;
the shifted operand keeps one headroom bit so that the magnitude (at most √2
times the component bound) still fits; result exponent is `b_exp + b_shr`. -/
def xs3_vect_complex_mag_calc_params (b_exp : ℤ) (b_hr : ℕ)
    (allow_sat : Bool) : ℤ × ℤ :=
  let b_shr := (if allow_sat then 0 else 1) - (b_hr : ℤ)
  (b_exp + b_shr, b_shr)

/-! ## Integer kernels (modelled from the spec §4.2)

Each kernel writes its output mantissas by the contract formula and returns the
headroom of what it wrote ("each returns the headroom of its result"). -/

/-- Modelled from the spec: `xs3_vect_s16_shl` kernel,
`a[i] = sat(b[i] << shl)` with negative `shl` an arithmetic right shift.
Returns the written data and its headroom. -/
def xs3_vect_s16_shl (b : List ℤ) (shl : ℤ) : List ℤ × ℕ :=
  let data := b.map (fun m => sat16 (ashr m (-shl)))
  (data, hr16_list data)

/-- Modelled from the spec: `xs3_vect_complex_s16_add` kernel,
`a[i] = sat((b[i] >> b_shr) + (c[i] >> c_shr))` on both component arrays.
Returns the written arrays and their combined headroom. -/
def xs3_vect_complex_s16_add (bre bim cre cim : List ℤ) (b_shr c_shr : ℤ) :
    List ℤ × List ℤ × ℕ :=
  let re := List.zipWith (fun x y => sat16 (ashr x b_shr + ashr y c_shr)) bre cre
  let im := List.zipWith (fun x y => sat16 (ashr x b_shr + ashr y c_shr)) bim cim
  (re, im, xs3_vect_complex_s16_headroom re im)

/-- Modelled from the spec: `xs3_vect_complex_s16_sub` kernel (the add kernel
with the second term negated before saturating). -/
def xs3_vect_complex_s16_sub (bre bim cre cim : List ℤ) (b_shr c_shr : ℤ) :
    List ℤ × List ℤ × ℕ :=
  let re := List.zipWith (fun x y => sat16 (ashr x b_shr - ashr y c_shr)) bre cre
  let im := List.zipWith (fun x y => sat16 (ashr x b_shr - ashr y c_shr)) bim cim
  (re, im, xs3_vect_complex_s16_headroom re im)

/-- Modelled from the spec: `xs3_vect_s16_mul` kernel,
`a[i] = sat((b[i] * c[i]) >> sat_shr)`.  Returns the data and its headroom. -/
def xs3_vect_s16_mul (b c : List ℤ) (sat : ℤ) : List ℤ × ℕ :=
  let data := List.zipWith (fun x y => sat16 (ashr (x * y) sat)) b c
  (data, hr16_list data)

/-- Modelled from the spec: `xs3_vect_complex_s16_complex_mul` kernel,
`a.re[i] = sat((b.re·c.re − b.im·c.im) >> sat_shr)`, likewise imaginary. -/
def xs3_vect_complex_s16_complex_mul (bre bim cre cim : List ℤ) (sat : ℤ) :
    List ℤ × List ℤ × ℕ :=
  let bs := List.zip bre bim
  let cs := List.zip cre cim
  let re := List.zipWith (fun b c => sat16 (ashr (b.1 * c.1 - b.2 * c.2) sat)) bs cs
  let im := List.zipWith (fun b c => sat16 (ashr (b.1 * c.2 + b.2 * c.1) sat)) bs cs
  (re, im, xs3_vect_complex_s16_headroom re im)

/-- Modelled from the spec: `xs3_vect_complex_s16_scale` kernel, the complex
multiply kernel with a scalar second operand. -/
def xs3_vect_complex_s16_scale (bre bim : List ℤ) (are aim : ℤ) (sat : ℤ) :
    List ℤ × List ℤ × ℕ :=
  let bs := List.zip bre bim
  let re := bs.map (fun b => sat16 (ashr (b.1 * are - b.2 * aim) sat))
  let im := bs.map (fun b => sat16 (ashr (b.1 * aim + b.2 * are) sat))
  (re, im, xs3_vect_complex_s16_headroom re im)

/-- Modelled from the spec: `xs3_vect_complex_s16_real_scale` kernel, the real
multiply kernel applied to each component array with a scalar. -/
def xs3_vect_complex_s16_real_scale (bre bim : List ℤ) (alpha : ℤ) (sat : ℤ) :
    List ℤ × List ℤ × ℕ :=
  let re := bre.map (fun x => sat16 (ashr (x * alpha) sat))
  let im := bim.map (fun x => sat16 (ashr (x * alpha) sat))
  (re, im, xs3_vect_complex_s16_headroom re im)

/-- Modelled from the spec: `xs3_vect_complex_s16_mag` kernel.  The CORDIC
rotation is an implementation detail (spec §9); the model writes the rounded
magnitude of each shifted element and, per the kernel contract, returns the
headroom of what it wrote. -/
def xs3_vect_complex_s16_mag (bre bim : List ℤ) (b_shr : ℤ) : List ℤ × ℕ :=
  let data := List.zipWith
    (fun re im => sat16 (((ashr re b_shr) ^ 2 + (ashr im b_shr) ^ 2).toNat.sqrt : ℤ))
    bre bim
  (data, hr16_list data)

/-- Modelled from the spec: `xs3_vect_complex_s16_to_complex_s32` kernel;
the 16-bit mantissas are sign-extended unchanged into the interleaved 32-bit
pairs (the caller keeps the exponent unchanged). -/
def xs3_vect_complex_s16_to_complex_s32 (bre bim : List ℤ) : List (ℤ × ℤ) :=
  List.zip bre bim

/-! ## BFP vector types and the algebra layer

The orchestrators below are translated statement by statement from
`src/lib_xs3_math/src/bfp/bfp_complex_s16.c`.  Each C function mutates its
output struct; the model returns the updated struct. -/

/-- The `bfp_complex_s16_t` handle: parallel real/imaginary mantissa arrays,
shared exponent, recorded headroom.  The `length` field of the C struct is the
(common) list length. -/
structure BfpComplexS16 where
  real : List ℤ
  imag : List ℤ
  exp : ℤ
  hr : ℕ
  deriving DecidableEq

/-- The `bfp_s16_t` handle. -/
structure BfpS16 where
  data : List ℤ
  exp : ℤ
  hr : ℕ
  deriving DecidableEq

/-- The `bfp_complex_s32_t` handle: interleaved (re, im) mantissa pairs. -/
structure BfpComplexS32 where
  data : List (ℤ × ℤ)
  exp : ℤ
  hr : ℕ
  deriving DecidableEq

/-- `bfp_complex_s16_headroom` (from `bfp_complex_s16.c`): recompute and store
the headroom of the vector's own data. -/
def bfp_complex_s16_headroom (a : BfpComplexS16) : BfpComplexS16 :=
  { a with hr := xs3_vect_complex_s16_headroom a.real a.imag }

/-- `bfp_complex_s16_shl` (from `bfp_complex_s16.c`): copy exponent, shift both
component arrays, store the minimum of the two kernel headrooms. -/
def bfp_complex_s16_shl (b : BfpComplexS16) (shl : ℤ) : BfpComplexS16 :=
  let re := xs3_vect_s16_shl b.real shl
  let im := xs3_vect_s16_shl b.imag shl
  { real := re.1, imag := im.1, exp := b.exp, hr := min re.2 im.2 }

/-- `bfp_complex_s16_add` (from `bfp_complex_s16.c`). -/
def bfp_complex_s16_add (b c : BfpComplexS16) : BfpComplexS16 :=
  let p := xs3_vect_add_sub_calc_params b.exp c.exp b.hr c.hr XS3_BFP_ALLOW_SATURATION
  let k := xs3_vect_complex_s16_add b.real b.imag c.real c.imag p.2.1 p.2.2
  { real := k.1, imag := k.2.1, exp := p.1, hr := k.2.2 }

/-- `bfp_complex_s16_sub` (from `bfp_complex_s16.c`). -/
def bfp_complex_s16_sub (b c : BfpComplexS16) : BfpComplexS16 :=
  let p := xs3_vect_add_sub_calc_params b.exp c.exp b.hr c.hr XS3_BFP_ALLOW_SATURATION
  let k := xs3_vect_complex_s16_sub b.real b.imag c.real c.imag p.2.1 p.2.2
  { real := k.1, imag := k.2.1, exp := p.1, hr := k.2.2 }

/-- `bfp_complex_s16_real_mul` (from `bfp_complex_s16.c`): componentwise real
multiply, headroom the minimum of the two kernel headrooms. -/
def bfp_complex_s16_real_mul (b : BfpComplexS16) (c : BfpS16) : BfpComplexS16 :=
  let p := xs3_vect_complex_s16_real_mul_calc_params b.exp c.exp b.hr c.hr
    XS3_BFP_ALLOW_SATURATION
  let re := xs3_vect_s16_mul b.real c.data p.2
  let im := xs3_vect_s16_mul b.imag c.data p.2
  { real := re.1, imag := im.1, exp := p.1, hr := min re.2 im.2 }

/-- `bfp_complex_s16_mul` (from `bfp_complex_s16.c`). -/
def bfp_complex_s16_mul (b c : BfpComplexS16) : BfpComplexS16 :=
  let p := xs3_vect_complex_s16_complex_mul_calc_params b.exp c.exp b.hr c.hr
    XS3_BFP_ALLOW_SATURATION
  let k := xs3_vect_complex_s16_complex_mul b.real b.imag c.real c.imag p.2
  { real := k.1, imag := k.2.1, exp := p.1, hr := k.2.2 }

/-- `bfp_complex_s16_real_scale` (from `bfp_complex_s16.c`): the scalar's
headroom parameter is `HR_S16(alpha_mant)`. -/
def bfp_complex_s16_real_scale (b : BfpComplexS16) (alpha_mant alpha_exp : ℤ) :
    BfpComplexS16 :=
  let s_hr := HR_S16 alpha_mant
  let p := xs3_vect_s16_scale_calc_params b.exp alpha_exp b.hr s_hr
    XS3_BFP_ALLOW_SATURATION
  let k := xs3_vect_complex_s16_real_scale b.real b.imag alpha_mant p.2
  { real := k.1, imag := k.2.1, exp := p.1, hr := k.2.2 }

/-- `bfp_complex_s16_scale` (from `bfp_complex_s16.c`): the scalar's headroom
parameter is `HR_C16(alpha_mant)`. -/
def bfp_complex_s16_scale (b : BfpComplexS16) (alpha_re alpha_im alpha_exp : ℤ) :
    BfpComplexS16 :=
  let alpha_hr := HR_C16 alpha_re alpha_im
  let p := xs3_vect_complex_s16_complex_mul_calc_params b.exp alpha_exp b.hr alpha_hr
    XS3_BFP_ALLOW_SATURATION
  let k := xs3_vect_complex_s16_scale b.real b.imag alpha_re alpha_im p.2
  { real := k.1, imag := k.2.1, exp := p.1, hr := k.2.2 }

/-- `bfp_complex_s16_mag` (from `bfp_complex_s16.c`). -/
def bfp_complex_s16_mag (b : BfpComplexS16) : BfpS16 :=
  let p := xs3_vect_complex_mag_calc_params b.exp b.hr XS3_BFP_ALLOW_SATURATION
  let k := xs3_vect_complex_s16_mag b.real b.imag p.2
  { data := k.1, exp := p.1, hr := k.2 }

/-- `bfp_complex_s16_to_complex_s32` (from `bfp_complex_s16.c`): convert the
mantissas, keep the exponent, and set `a->hr = b->hr + 16` without recomputing
headroom from the written 32-bit mantissas. -/
def bfp_complex_s16_to_complex_s32 (b : BfpComplexS16) : BfpComplexS32 :=
  { data := xs3_vect_complex_s16_to_complex_s32 b.real b.imag,
    exp := b.exp,
    hr := b.hr + 16 }

/-! ## The real 16-bit subtraction path exercised by `test_bfp_sub_vect.c`

`bfp_sub_vect_s16` and its helpers are not among the sources (only the unit
test is); they are modelled from the spec's algebra-layer recipe (§4.3): invoke
the add/sub calculator, write exponent and length, invoke the kernel and
capture its returned headroom. -/

/-- Modelled from the spec: `xs3_vect_s16_sub`/`xs3_sub_vect_s16` kernel,
`a[i] = sat((b[i] >> b_shr) - (c[i] >> c_shr))`; returns data and headroom. -/
def xs3_vect_s16_sub (b c : List ℤ) (b_shr c_shr : ℤ) : List ℤ × ℕ :=
  let data := List.zipWith (fun x y => sat16 (ashr x b_shr - ashr y c_shr)) b c
  (data, hr16_list data)

/-- Modelled from the spec: `bfp_sub_vect_s16`, the high-level real 16-bit
subtraction `a ← b - c`. -/
def bfp_sub_vect_s16 (b c : BfpS16) : BfpS16 :=
  let p := bfp_sub_vect_calc_params b.exp c.exp b.hr c.hr
  let k := xs3_vect_s16_sub b.data c.data p.2.1 p.2.2
  { data := k.1, exp := p.1, hr := k.2 }

/-- Modelled from the spec: `bfp_set_vect_s16` as used by the unit test — fill
the vector with one mantissa value, set the exponent, recompute headroom. -/
def bfp_set_vect_s16 (value exp : ℤ) (length : ℕ) : BfpS16 :=
  let data := List.replicate length value
  { data := data, exp := exp, hr := hr16_list data }

/-! ## Mono-spectrum pack/unpack (spec §4.4, `bfp_fft.h`)

The implementations of `bfp_fft_unpack_mono` / `bfp_fft_pack_mono` are not
among the sources; `bfp_fft.h` documents unpack as exactly four steps.  The
caller-owned mantissa buffer (which must have one complex element of spare
capacity beyond the advertised length) is modelled as a total function
`ℕ → ℤ × ℤ`, with the advertised length a separate field, as in the C struct. -/

/-- Pointwise update of a buffer. -/
def setIdx (f : ℕ → ℤ × ℤ) (i : ℕ) (v : ℤ × ℤ) : ℕ → ℤ × ℤ :=
  fun j => if j = i then v else f j

/-- A complex 32-bit BFP vector over a caller-owned buffer with spare capacity:
`buf` is the storage, `len` the advertised length. -/
structure FftVec where
  buf : ℕ → ℤ × ℤ
  len : ℕ
  exp : ℤ
  hr : ℕ

/-- Modelled from the spec: `bfp_fft_unpack_mono` — the four documented steps
`Re(X[N/2]) ← Im(X[0])`; `Im(X[0]) ← 0`; `Im(X[N/2]) ← 0`;
`length ← length + 1`, where `N/2` is the packed length. -/
def bfp_fft_unpack_mono (x : FftVec) : FftVec :=
  let im0 := (x.buf 0).2
  let b1 := setIdx x.buf x.len (im0, 0)
  let b2 := setIdx b1 0 ((b1 0).1, 0)
  { buf := b2, len := x.len + 1, exp := x.exp, hr := x.hr }

/-- Modelled from the spec: `bfp_fft_pack_mono` — the exact inverse of
`bfp_fft_unpack_mono`: fold `Re(X[N/2])` back into `Im(X[0])` and drop the
extra element. -/
def bfp_fft_pack_mono (x : FftVec) : FftVec :=
  let l := x.len - 1
  let b1 := setIdx x.buf 0 ((x.buf 0).1, (x.buf l).1)
  { buf := b1, len := l, exp := x.exp, hr := x.hr }

/-! ## Spec-side characterisation of the add/sub exponent choice (claim C2) -/

/-- Exponent `a` "fits" the operand metadata `(b_exp, b_hr)`, `(c_exp, c_hr)`:
for every pair of mantissas consistent with the recorded headrooms, both
operands — after right-shifting their mantissas to the common exponent `a` —
fit in the signed 16-bit range with one guaranteed headroom bit, and their sum
and their difference fit in the signed 16-bit range. -/
def addSubFitsAt (b_exp c_exp : ℤ) (b_hr c_hr : ℕ) (a : ℤ) : Prop :=
  ∀ bm cm : ℤ,
    -(2 ^ (15 - b_hr)) ≤ bm → bm ≤ 2 ^ (15 - b_hr) - 1 →
    -(2 ^ (15 - c_hr)) ≤ cm → cm ≤ 2 ^ (15 - c_hr) - 1 →
    (-16384 ≤ shiftToExp bm b_exp a ∧ shiftToExp bm b_exp a ≤ 16383) ∧
    (-16384 ≤ shiftToExp cm c_exp a ∧ shiftToExp cm c_exp a ≤ 16383) ∧
    (-32768 ≤ shiftToExp bm b_exp a + shiftToExp cm c_exp a ∧
      shiftToExp bm b_exp a + shiftToExp cm c_exp a ≤ 32767) ∧
    (-32768 ≤ shiftToExp bm b_exp a - shiftToExp cm c_exp a ∧
      shiftToExp bm b_exp a - shiftToExp cm c_exp a ≤ 32767)

/-- The full claim-C2 contract for the add/sub calculator at given inputs:
the returned shifts are the exponent differences, and the returned exponent is
the smallest exponent satisfying `addSubFitsAt`. -/
def addSubParamsSpec (b_exp c_exp : ℤ) (b_hr c_hr : ℕ) : Prop :=
  (bfp_sub_vect_calc_params b_exp c_exp b_hr c_hr).2.1 =
      (bfp_sub_vect_calc_params b_exp c_exp b_hr c_hr).1 - b_exp ∧
  (bfp_sub_vect_calc_params b_exp c_exp b_hr c_hr).2.2 =
      (bfp_sub_vect_calc_params b_exp c_exp b_hr c_hr).1 - c_exp ∧
  IsLeast {a : ℤ | addSubFitsAt b_exp c_exp b_hr c_hr a}
    (bfp_sub_vect_calc_params b_exp c_exp b_hr c_hr).1

/-! ### Bounds on arithmetic shifts -/

/-- If `-2^k ≤ m ≤ 2^k - 1` and the shift `s` leaves at most `j` significant
bits (`k - s ≤ j`), the shifted mantissa satisfies `-2^j ≤ m' ≤ 2^j - 1`. -/
theorem ashr_bounds (k j : ℕ) (m s : ℤ) (h1 : -(2 ^ k) ≤ m) (h2 : m ≤ 2 ^ k - 1)
    (hs : (k : ℤ) - s ≤ j) : -(2 ^ j) ≤ ashr m s ∧ ashr m s ≤ 2 ^ j - 1 := by
  unfold ashr
  by_cases h : 0 ≤ s
  · rw [if_pos h]
    have hpos : (0 : ℤ) < 2 ^ s.toNat := by positivity
    constructor
    · rw [Int.le_ediv_iff_mul_le hpos]
      have : -(2 ^ j) * 2 ^ s.toNat = -(2 ^ (j + s.toNat)) := by
        rw [pow_add]
        ring
      rw [this]
      have hk : (k : ℤ) ≤ (j : ℤ) + s.toNat := by
        rw [Int.toNat_of_nonneg h] at *
        omega
      have hmono : (2 : ℤ) ^ k ≤ 2 ^ (j + s.toNat) := by
        apply pow_le_pow_right₀ (by norm_num)
        exact_mod_cast hk
      omega
    · have hlt : m / 2 ^ s.toNat < 2 ^ j := by
        rw [Int.ediv_lt_iff_lt_mul hpos]
        have : (2 : ℤ) ^ j * 2 ^ s.toNat = 2 ^ (j + s.toNat) := by
          rw [pow_add]
        rw [this]
        have hk : (k : ℤ) ≤ (j : ℤ) + s.toNat := by
          rw [Int.toNat_of_nonneg h] at *
          omega
        have hmono : (2 : ℤ) ^ k ≤ 2 ^ (j + s.toNat) := by
          apply pow_le_pow_right₀ (by norm_num)
          exact_mod_cast hk
        omega
      omega
  · rw [if_neg h]
    push_neg at h
    have ht : (-s).toNat = -s := Int.toNat_of_nonneg (by omega)
    have hk : (k : ℤ) + (-s).toNat ≤ (j : ℤ) := by
      rw [ht]
      omega
    have hsum : k + (-s).toNat ≤ j := by exact_mod_cast hk
    have hmono : (2 : ℤ) ^ (k + (-s).toNat) ≤ 2 ^ j :=
      pow_le_pow_right₀ (by norm_num) hsum
    have hpow : (2 : ℤ) ^ (k + (-s).toNat) = 2 ^ k * 2 ^ (-s).toNat := pow_add 2 k _
    have hp1 : (1 : ℤ) ≤ 2 ^ (-s).toNat := one_le_pow₀ (by norm_num)
    constructor
    · nlinarith
    · nlinarith

/-- If `m ≤ -2^k` and the shift `s` leaves at least 16 significant bits
(`k - s ≥ 15`), the shifted mantissa is at most `-2^15`. -/
theorem ashr_le_of_min (k : ℕ) (m s : ℤ) (h1 : m ≤ -(2 ^ k))
    (hs : (15 : ℤ) ≤ (k : ℤ) - s) : ashr m s ≤ -32768 := by
  unfold ashr
  by_cases h : 0 ≤ s
  · rw [if_pos h]
    have hpos : (0 : ℤ) < 2 ^ s.toNat := by positivity
    have hlt : m / 2 ^ s.toNat < -32768 + 1 := by
      rw [Int.ediv_lt_iff_lt_mul hpos]
      have hk : (15 : ℤ) + s.toNat ≤ (k : ℤ) := by
        rw [Int.toNat_of_nonneg h] at *
        omega
      have hsum : 15 + s.toNat ≤ k := by exact_mod_cast hk
      have hmono : (2 : ℤ) ^ (15 + s.toNat) ≤ 2 ^ k :=
        pow_le_pow_right₀ (by norm_num) hsum
      have hpow : (2 : ℤ) ^ (15 + s.toNat) = 32768 * 2 ^ s.toNat := by
        rw [pow_add]
        norm_num
      nlinarith [hpos]
    omega
  · rw [if_neg h]
    push_neg at h
    have ht : (-s).toNat = -s := Int.toNat_of_nonneg (by omega)
    have hk : (15 : ℤ) ≤ (k : ℤ) + (-s).toNat - (-s).toNat - s + (-s).toNat - (-s : ℤ) + 0 := by
      omega
    have hk' : 15 ≤ k + (-s).toNat := by
      have : (15 : ℤ) ≤ (k : ℤ) + (-s).toNat := by
        rw [ht]
        omega
      exact_mod_cast this
    have hmono : (2 : ℤ) ^ 15 ≤ 2 ^ (k + (-s).toNat) :=
      pow_le_pow_right₀ (by norm_num) hk'
    have hpow : (2 : ℤ) ^ (k + (-s).toNat) = 2 ^ k * 2 ^ (-s).toNat := pow_add 2 k _
    have hp1 : (0 : ℤ) < 2 ^ (-s).toNat := by positivity
    nlinarith

/-- Closed form of the modelled calculator (shared by several proofs). -/
theorem bfp_sub_vect_calc_params_eq (b_exp c_exp : ℤ) (b_hr c_hr : ℕ) :
    bfp_sub_vect_calc_params b_exp c_exp b_hr c_hr =
      (max (b_exp - b_hr) (c_exp - c_hr) + 1,
       max (b_exp - b_hr) (c_exp - c_hr) + 1 - b_exp,
       max (b_exp - b_hr) (c_exp - c_hr) + 1 - c_exp) := rfl

/-- C2: for every pair of operand exponents and headrooms, the add/subtract
parameter calculator returns `b_shr = a_exp - b_exp` and `c_shr = a_exp - c_exp`,
where `a_exp` is the smallest exponent such that both operands, after
right-shifting their mantissas to the common exponent, keep one guaranteed
headroom bit and their sum and difference fit in the signed 16-bit range, for
every mantissa pair consistent with the recorded headrooms. -/
theorem C2_add_sub_calc_params_minimal (b_exp c_exp : ℤ) (b_hr c_hr : ℕ)
    (hb : b_hr ≤ 15) (hc : c_hr ≤ 15) :
    addSubParamsSpec b_exp c_exp b_hr c_hr := by
  have hbc : ((15 - b_hr : ℕ) : ℤ) = 15 - (b_hr : ℤ) := by omega
  have hcc : ((15 - c_hr : ℕ) : ℤ) = 15 - (c_hr : ℤ) := by omega
  unfold addSubParamsSpec
  rw [bfp_sub_vect_calc_params_eq]
  refine ⟨rfl, rfl, ?_, ?_⟩
  · -- membership: the returned exponent fits
    show addSubFitsAt b_exp c_exp b_hr c_hr (max (b_exp - b_hr) (c_exp - c_hr) + 1)
    intro bm cm h1 h2 h3 h4
    have e14 : (2 : ℤ) ^ 14 = 16384 := by norm_num
    have hbb := ashr_bounds (15 - b_hr) 14 bm
      (max (b_exp - b_hr) (c_exp - c_hr) + 1 - b_exp) h1 h2
      (by
        rw [hbc]
        have := le_max_left (b_exp - (b_hr : ℤ)) (c_exp - (c_hr : ℤ))
        omega)
    have hcb := ashr_bounds (15 - c_hr) 14 cm
      (max (b_exp - b_hr) (c_exp - c_hr) + 1 - c_exp) h3 h4
      (by
        rw [hcc]
        have := le_max_right (b_exp - (b_hr : ℤ)) (c_exp - (c_hr : ℤ))
        omega)
    rw [e14] at hbb hcb
    unfold shiftToExp
    refine ⟨⟨hbb.1, hbb.2⟩, ⟨hcb.1, hcb.2⟩, ?_, ?_⟩ <;> constructor <;> omega
  · -- lower bound: no smaller exponent fits
    intro x hx
    by_contra hlt
    push_neg at hlt
    have hxle : x ≤ max (b_exp - (b_hr : ℤ)) (c_exp - (c_hr : ℤ)) := by omega
    have hpb : (0 : ℤ) < 2 ^ (15 - b_hr) := by positivity
    have hpc : (0 : ℤ) < 2 ^ (15 - c_hr) := by positivity
    have h := hx (-(2 ^ (15 - b_hr))) (-(2 ^ (15 - c_hr)))
      le_rfl (by omega) le_rfl (by omega)
    unfold shiftToExp at h
    obtain ⟨⟨hb1, _⟩, ⟨hc1, _⟩, _⟩ := h
    rcases le_max_iff.mp hxle with hu | hv
    · have := ashr_le_of_min (15 - b_hr) (-(2 ^ (15 - b_hr))) (x - b_exp) le_rfl
        (by
          rw [hbc]
          omega)
      omega
    · have := ashr_le_of_min (15 - c_hr) (-(2 ^ (15 - c_hr))) (x - c_exp) le_rfl
        (by
          rw [hcc]
          omega)
      omega

/-- Witness for C2 at the first unit-test vector `(b_exp, c_exp, b_hr, c_hr) =
(0, 0, 0, 0)`. -/
theorem C2_add_sub_calc_params_minimal_witness :
    (0 : ℕ) ≤ 15 ∧ (0 : ℕ) ≤ 15 ∧ addSubParamsSpec 0 0 0 0 :=
  ⟨by decide, by decide, C2_add_sub_calc_params_minimal 0 0 0 0 (by decide) (by decide)⟩

/-- C8: the add/subtract parameter calculator is translation-invariant in the
exponents — adding `d` to both operand exponents leaves both shifts unchanged
and increases the result exponent by exactly `d`. -/
theorem C8_add_sub_calc_params_translation (d b_exp c_exp : ℤ) (b_hr c_hr : ℕ) :
    (bfp_sub_vect_calc_params (b_exp + d) (c_exp + d) b_hr c_hr).1 =
      (bfp_sub_vect_calc_params b_exp c_exp b_hr c_hr).1 + d ∧
    (bfp_sub_vect_calc_params (b_exp + d) (c_exp + d) b_hr c_hr).2.1 =
      (bfp_sub_vect_calc_params b_exp c_exp b_hr c_hr).2.1 ∧
    (bfp_sub_vect_calc_params (b_exp + d) (c_exp + d) b_hr c_hr).2.2 =
      (bfp_sub_vect_calc_params b_exp c_exp b_hr c_hr).2.2 := by
  rw [bfp_sub_vect_calc_params_eq, bfp_sub_vect_calc_params_eq]
  refine ⟨?_, ?_, ?_⟩ <;> simp only [] <;> omega

/-- C9: the add/subtract parameter calculator is symmetric in its operands —
exchanging `(b_exp, b_hr)` and `(c_exp, c_hr)` returns the same result
exponent with the two shifts exchanged. -/
theorem C9_add_sub_calc_params_symmetric (b_exp c_exp : ℤ) (b_hr c_hr : ℕ) :
    (bfp_sub_vect_calc_params c_exp b_exp c_hr b_hr).1 =
      (bfp_sub_vect_calc_params b_exp c_exp b_hr c_hr).1 ∧
    (bfp_sub_vect_calc_params c_exp b_exp c_hr b_hr).2.1 =
      (bfp_sub_vect_calc_params b_exp c_exp b_hr c_hr).2.2 ∧
    (bfp_sub_vect_calc_params c_exp b_exp c_hr b_hr).2.2 =
      (bfp_sub_vect_calc_params b_exp c_exp b_hr c_hr).2.1 := by
  rw [bfp_sub_vect_calc_params_eq, bfp_sub_vect_calc_params_eq]
  refine ⟨?_, ?_, ?_⟩ <;> simp only [] <;> omega

/-- C3 counterexample: with `b = [0x0002]`, `b.exp = 0` and a **positive**
`c = [0x0010]`, `c.exp = -4` (the claim's operands), `bfp_sub_vect_s16` does
not produce `a = [0x3000]` with `a.exp = -12`, `a.hr = 1`: it produces
`[0x1000]` with headroom 2 (the represented value is 2 - 1 = 1, not 3). -/
theorem C3_sub_claimed_operands_refuted :
    ¬ ((bfp_sub_vect_s16 (bfp_set_vect_s16 0x0002 0 1)
          (bfp_set_vect_s16 0x0010 (-4) 1)).data = [0x3000] ∧
       (bfp_sub_vect_s16 (bfp_set_vect_s16 0x0002 0 1)
          (bfp_set_vect_s16 0x0010 (-4) 1)).exp = -12 ∧
       (bfp_sub_vect_s16 (bfp_set_vect_s16 0x0002 0 1)
          (bfp_set_vect_s16 0x0010 (-4) 1)).hr = 1) := by
  decide

/-- C3 amended: with `c = [-0x0010]`, `c.exp = -4` — the operand of the unit
test vector the scenario was taken from — the subtraction produces exactly
`a = [0x3000]`, `a.exp = -12`, `a.hr = 1`. -/
theorem C3_sub_test_vector :
    bfp_sub_vect_s16 (bfp_set_vect_s16 0x0002 0 1) (bfp_set_vect_s16 (-0x0010) (-4) 1)
      = { data := [0x3000], exp := -12, hr := 1 } := by
  decide

/-- C4 counterexample: for `b = [-0x0100]`, `b.exp = 0`, `c = [0x0100]`,
`c.exp = 0`, the result's headroom is 1 (`HR_S16(-0x4000) = 1`, as the unit
test asserts), not 0 as the claim states. -/
theorem C4_sub_hr_zero_refuted :
    ¬ ((bfp_sub_vect_s16 (bfp_set_vect_s16 (-0x0100) 0 1)
          (bfp_set_vect_s16 0x0100 0 1)).data = [-0x4000] ∧
       (bfp_sub_vect_s16 (bfp_set_vect_s16 (-0x0100) 0 1)
          (bfp_set_vect_s16 0x0100 0 1)).exp = -5 ∧
       (bfp_sub_vect_s16 (bfp_set_vect_s16 (-0x0100) 0 1)
          (bfp_set_vect_s16 0x0100 0 1)).hr = 0) := by
  decide

/-- C4 amended: for `b = [-0x0100]`, `b.exp = 0`, `c = [0x0100]`, `c.exp = 0`,
`bfp_sub_vect_s16` produces `a = [-0x4000]`, `a.exp = -5` and `a.hr = 1`. -/
theorem C4_sub_mixed_exponents :
    bfp_sub_vect_s16 (bfp_set_vect_s16 (-0x0100) 0 1) (bfp_set_vect_s16 0x0100 0 1)
      = { data := [-0x4000], exp := -5, hr := 1 } := by
  decide

/-- C10: for every complex 16-bit BFP input vector `b` — whatever its mantissa
contents and recorded headroom — `bfp_complex_s16_to_complex_s32` sets the
result's exponent to `b.exp`, its length to `b`'s length, and its headroom to
exactly `b.hr + 16`, without recomputing headroom from the written 32-bit
mantissas. -/
theorem C10_to_complex_s32_metadata (b : BfpComplexS16)
    (hlen : b.imag.length = b.real.length) :
    (bfp_complex_s16_to_complex_s32 b).exp = b.exp ∧
    (bfp_complex_s16_to_complex_s32 b).data.length = b.real.length ∧
    (bfp_complex_s16_to_complex_s32 b).hr = b.hr + 16 := by
  refine ⟨rfl, ?_, rfl⟩
  simp [bfp_complex_s16_to_complex_s32, xs3_vect_complex_s16_to_complex_s32, hlen]

/-- Witness for C10 on a concrete vector (with a deliberately stale headroom
field, showing the stored headroom is not recomputed). -/
theorem C10_to_complex_s32_metadata_witness :
    ([(-7 : ℤ), 25] : List ℤ).length = ([(3 : ℤ), -400] : List ℤ).length ∧
    ((bfp_complex_s16_to_complex_s32 ⟨[3, -400], [-7, 25], 2, 9⟩).exp = 2 ∧
     (bfp_complex_s16_to_complex_s32 ⟨[3, -400], [-7, 25], 2, 9⟩).data.length = 2 ∧
     (bfp_complex_s16_to_complex_s32 ⟨[3, -400], [-7, 25], 2, 9⟩).hr = 9 + 16) :=
  ⟨by decide, C10_to_complex_s32_metadata ⟨[3, -400], [-7, 25], 2, 9⟩ (by decide)⟩

/-- Cons unfolding for `hr16_list`. -/
theorem hr16_list_cons (m : ℤ) (l : List ℤ) :
    hr16_list (m :: l) = min (HR_S16 m) (hr16_list l) := rfl

/-- Cons unfolding for `hr32_pairs`. -/
theorem hr32_pairs_cons (p : ℤ × ℤ) (l : List (ℤ × ℤ)) :
    hr32_pairs (p :: l) = min (min (HR_S32 p.1) (HR_S32 p.2)) (hr32_pairs l) := rfl

/-- A mantissa within the signed 16-bit range occupies at most 15 bits beyond
its sign bit. -/
theorem intSize_le_15_of_s16 (m : ℤ) (h1 : -32768 ≤ m) (h2 : m ≤ 32767) :
    intSize m ≤ 15 := by
  rw [intSize_le_iff]
  norm_num
  omega

/-- Sign-extending 16-bit mantissa pairs to 32 bits adds exactly 16 bits of
headroom: the 32-bit headroom of the zipped pairs is the combined 16-bit
headroom plus 16. -/
theorem hr32_pairs_zip (re im : List ℤ) (hlen : re.length = im.length)
    (hre : ∀ m ∈ re, -32768 ≤ m ∧ m ≤ 32767)
    (him : ∀ m ∈ im, -32768 ≤ m ∧ m ≤ 32767) :
    hr32_pairs (List.zip re im) = min (hr16_list re) (hr16_list im) + 16 := by
  induction re generalizing im with
  | nil =>
    cases im with
    | nil => rfl
    | cons i is => simp at hlen
  | cons r rs ih =>
    cases im with
    | nil => simp at hlen
    | cons i is =>
      have hlen' : rs.length = is.length := by simpa using hlen
      have hre' : ∀ m ∈ rs, -32768 ≤ m ∧ m ≤ 32767 :=
        fun m hm => hre m (List.mem_cons_of_mem _ hm)
      have him' : ∀ m ∈ is, -32768 ≤ m ∧ m ≤ 32767 :=
        fun m hm => him m (List.mem_cons_of_mem _ hm)
      have hr_r : intSize r ≤ 15 := by
        have h := hre r (List.mem_cons_self r rs)
        exact intSize_le_15_of_s16 r h.1 h.2
      have hr_i : intSize i ≤ 15 := by
        have h := him i (List.mem_cons_self i is)
        exact intSize_le_15_of_s16 i h.1 h.2
      have h1 := hr16_list_le_15 rs
      have h2 := hr16_list_le_15 is
      simp only [List.zip_cons_cons, hr32_pairs_cons, hr16_list_cons,
        ih is hlen' hre' him']
      unfold HR_S32 HR_S16
      omega

/-- C1: for each BFP algebra operation writing a result vector — headroom
refresh, shift, add, subtract, complex multiply, complex scale, magnitude, and
the 16→32-bit conversion (which sets `hr` to `b.hr + 16`) — the `hr` field
stored in the result equals the true minimum leading-sign-bit count minus one
(`min (hr16_list ·) (hr16_list ·)` over the real and imaginary parts) of the
written mantissas.  For the conversion this requires that the input vector's
mantissas are genuine 16-bit values and its recorded headroom is valid. -/
theorem C1_headroom_invariant (a b c : BfpComplexS16) (sh αre αim αexp : ℤ)
    (hlen : b.imag.length = b.real.length)
    (hre : ∀ m ∈ b.real, -32768 ≤ m ∧ m ≤ 32767)
    (him : ∀ m ∈ b.imag, -32768 ≤ m ∧ m ≤ 32767)
    (hbhr : b.hr = xs3_vect_complex_s16_headroom b.real b.imag) :
    (bfp_complex_s16_headroom a).hr =
      min (hr16_list (bfp_complex_s16_headroom a).real)
          (hr16_list (bfp_complex_s16_headroom a).imag) ∧
    (bfp_complex_s16_shl b sh).hr =
      min (hr16_list (bfp_complex_s16_shl b sh).real)
          (hr16_list (bfp_complex_s16_shl b sh).imag) ∧
    (bfp_complex_s16_add b c).hr =
      min (hr16_list (bfp_complex_s16_add b c).real)
          (hr16_list (bfp_complex_s16_add b c).imag) ∧
    (bfp_complex_s16_sub b c).hr =
      min (hr16_list (bfp_complex_s16_sub b c).real)
          (hr16_list (bfp_complex_s16_sub b c).imag) ∧
    (bfp_complex_s16_mul b c).hr =
      min (hr16_list (bfp_complex_s16_mul b c).real)
          (hr16_list (bfp_complex_s16_mul b c).imag) ∧
    (bfp_complex_s16_scale b αre αim αexp).hr =
      min (hr16_list (bfp_complex_s16_scale b αre αim αexp).real)
          (hr16_list (bfp_complex_s16_scale b αre αim αexp).imag) ∧
    (bfp_complex_s16_mag b).hr = hr16_list (bfp_complex_s16_mag b).data ∧
    (bfp_complex_s16_to_complex_s32 b).hr =
      hr32_pairs (bfp_complex_s16_to_complex_s32 b).data := by
  refine ⟨rfl, rfl, rfl, rfl, rfl, rfl, rfl, ?_⟩
  show b.hr + 16 = hr32_pairs (List.zip b.real b.imag)
  rw [hr32_pairs_zip b.real b.imag hlen.symm hre him, hbhr]
  rfl

/-- Witness for C1 on concrete vectors (the input of the 16→32 conversion has
valid mantissas and a valid recorded headroom). -/
theorem C1_headroom_invariant_witness :
    (([(-7 : ℤ), 25] : List ℤ).length = ([(100 : ℤ), -200] : List ℤ).length ∧
     (∀ m ∈ ([(100 : ℤ), -200] : List ℤ), -32768 ≤ m ∧ m ≤ 32767) ∧
     (∀ m ∈ ([(-7 : ℤ), 25] : List ℤ), -32768 ≤ m ∧ m ≤ 32767) ∧
     (7 : ℕ) = xs3_vect_complex_s16_headroom [100, -200] [-7, 25]) ∧
    (bfp_complex_s16_to_complex_s32 ⟨[100, -200], [-7, 25], 0, 7⟩).hr =
      hr32_pairs (bfp_complex_s16_to_complex_s32 ⟨[100, -200], [-7, 25], 0, 7⟩).data :=
  ⟨⟨by decide, by decide, by decide, by decide⟩,
    (C1_headroom_invariant ⟨[1], [2], 0, 0⟩ ⟨[100, -200], [-7, 25], 0, 7⟩
      ⟨[3], [4], 1, 2⟩ 2 3 (-4) 5 (by decide) (by decide) (by decide)
      (by decide)).2.2.2.2.2.2.2⟩

/-- C7 counterexample: the scale operations do **not** use the multiply-rule
calculator with `alpha_hr = CLS(alpha_mant)`.  At `b.exp = 0`, `b.hr = 0`,
`alpha_mant = 1`, `alpha_exp = 0`, the code (which passes `HR_S16(1) = 14`)
produces result exponent 2, while the calculator applied with
`CLS_S16(1) = 15` would give exponent 1. -/
theorem C7_scale_with_cls_refuted :
    ¬ ((bfp_complex_s16_real_scale ⟨[0x4000], [0], 0, 0⟩ 1 0).exp =
        (xs3_vect_s16_scale_calc_params 0 0 0 (CLS_S16 1)
          XS3_BFP_ALLOW_SATURATION).1) := by
  decide

/-- C7 amended: for every input vector and scalar, the scale operations
compute the result exponent and write the mantissas given by the matching
multiply-rule calculator applied with the scalar as a length-1 operand whose
headroom parameter is `CLS(alpha_mant) - 1` (its headroom; for the complex
scalar, the minimum over the two components). -/
theorem C7_scale_uses_cls_minus_one (b : BfpComplexS16) (αm αre αim αexp : ℤ) :
    ((bfp_complex_s16_real_scale b αm αexp).exp =
       (xs3_vect_s16_scale_calc_params b.exp αexp b.hr (CLS_S16 αm - 1)
         XS3_BFP_ALLOW_SATURATION).1 ∧
     (bfp_complex_s16_real_scale b αm αexp).real =
       (xs3_vect_complex_s16_real_scale b.real b.imag αm
         (xs3_vect_s16_scale_calc_params b.exp αexp b.hr (CLS_S16 αm - 1)
           XS3_BFP_ALLOW_SATURATION).2).1 ∧
     (bfp_complex_s16_real_scale b αm αexp).imag =
       (xs3_vect_complex_s16_real_scale b.real b.imag αm
         (xs3_vect_s16_scale_calc_params b.exp αexp b.hr (CLS_S16 αm - 1)
           XS3_BFP_ALLOW_SATURATION).2).2.1) ∧
    ((bfp_complex_s16_scale b αre αim αexp).exp =
       (xs3_vect_complex_s16_complex_mul_calc_params b.exp αexp b.hr
         (min (CLS_S16 αre - 1) (CLS_S16 αim - 1)) XS3_BFP_ALLOW_SATURATION).1 ∧
     (bfp_complex_s16_scale b αre αim αexp).real =
       (xs3_vect_complex_s16_scale b.real b.imag αre αim
         (xs3_vect_complex_s16_complex_mul_calc_params b.exp αexp b.hr
           (min (CLS_S16 αre - 1) (CLS_S16 αim - 1)) XS3_BFP_ALLOW_SATURATION).2).1 ∧
     (bfp_complex_s16_scale b αre αim αexp).imag =
       (xs3_vect_complex_s16_scale b.real b.imag αre αim
         (xs3_vect_complex_s16_complex_mul_calc_params b.exp αexp b.hr
           (min (CLS_S16 αre - 1) (CLS_S16 αim - 1)) XS3_BFP_ALLOW_SATURATION).2).2.1) := by
  rw [← HR_S16_eq_CLS_sub_one αm, ← HR_S16_eq_CLS_sub_one αre, ← HR_S16_eq_CLS_sub_one αim]
  exact ⟨⟨rfl, rfl, rfl⟩, ⟨rfl, rfl, rfl⟩⟩

/-- Restoring a packed vector: every advertised element survives
`bfp_fft_pack_mono ∘ bfp_fft_unpack_mono`. -/
theorem pack_unpack_buf (x : FftVec) (hx : 1 ≤ x.len) (i : ℕ) (hi : i < x.len) :
    (bfp_fft_pack_mono (bfp_fft_unpack_mono x)).buf i = x.buf i := by
  simp only [bfp_fft_pack_mono, bfp_fft_unpack_mono, setIdx, Nat.add_sub_cancel]
  split_ifs <;> first | rfl | omega | simp_all

/-- Restoring an unpacked vector: every advertised element survives
`bfp_fft_unpack_mono ∘ bfp_fft_pack_mono` when the DC and Nyquist imaginary
parts are zero. -/
theorem unpack_pack_buf (y : FftVec) (hy : 2 ≤ y.len)
    (hy0 : (y.buf 0).2 = 0) (hyN : (y.buf (y.len - 1)).2 = 0)
    (i : ℕ) (hi : i < y.len) :
    (bfp_fft_unpack_mono (bfp_fft_pack_mono y)).buf i = y.buf i := by
  simp only [bfp_fft_pack_mono, bfp_fft_unpack_mono, setIdx]
  split_ifs <;> subst_vars
  · exfalso
    omega
  · rw [← hy0]
  · rw [← hyN]
  · rfl

/-- C5: pack/unpack are exact inverses on the advertised vector contents.
For any packed spectrum `x` (nonempty, with the documented spare buffer slot),
`bfp_fft_pack_mono (bfp_fft_unpack_mono x)` restores `x` bit-exactly — same
mantissas at every index below the length, same exponent, headroom and length.
For any `y` in the unpacked state (`Im(X[0]) = 0`, `Im(X[N/2]) = 0`),
`bfp_fft_unpack_mono (bfp_fft_pack_mono y)` restores `y` bit-exactly.
Moreover unpack performs exactly the four documented steps:
`Re(X[N/2]) ← Im(X[0])`, `Im(X[0]) ← 0`, `Im(X[N/2]) ← 0`,
`length ← length + 1`, all other elements untouched. -/
theorem C5_pack_unpack_inverse (x y : FftVec)
    (hx : 1 ≤ x.len) (hy : 2 ≤ y.len)
    (hy0 : (y.buf 0).2 = 0) (hyN : (y.buf (y.len - 1)).2 = 0) :
    ((bfp_fft_pack_mono (bfp_fft_unpack_mono x)).len = x.len ∧
     (bfp_fft_pack_mono (bfp_fft_unpack_mono x)).exp = x.exp ∧
     (bfp_fft_pack_mono (bfp_fft_unpack_mono x)).hr = x.hr ∧
     ∀ i, i < x.len → (bfp_fft_pack_mono (bfp_fft_unpack_mono x)).buf i = x.buf i) ∧
    ((bfp_fft_unpack_mono (bfp_fft_pack_mono y)).len = y.len ∧
     (bfp_fft_unpack_mono (bfp_fft_pack_mono y)).exp = y.exp ∧
     (bfp_fft_unpack_mono (bfp_fft_pack_mono y)).hr = y.hr ∧
     ∀ i, i < y.len → (bfp_fft_unpack_mono (bfp_fft_pack_mono y)).buf i = y.buf i) ∧
    ((bfp_fft_unpack_mono x).len = x.len + 1 ∧
     (bfp_fft_unpack_mono x).buf x.len = ((x.buf 0).2, 0) ∧
     (bfp_fft_unpack_mono x).buf 0 = ((x.buf 0).1, 0) ∧
     ∀ i, i ≠ 0 → i ≠ x.len → (bfp_fft_unpack_mono x).buf i = x.buf i) := by
  refine ⟨⟨?_, rfl, rfl, pack_unpack_buf x hx⟩,
          ⟨?_, rfl, rfl, unpack_pack_buf y hy hy0 hyN⟩, rfl, ?_, ?_, ?_⟩
  · show x.len + 1 - 1 = x.len
    omega
  · show y.len - 1 + 1 = y.len
    omega
  · -- the Nyquist slot receives (Im(X[0]), 0)
    simp only [bfp_fft_unpack_mono, setIdx]
    split_ifs <;> first | rfl | (exfalso; omega)
  · -- the DC slot keeps its real part, imaginary part zeroed
    simp only [bfp_fft_unpack_mono, setIdx]
    split_ifs <;> first | rfl | (exfalso; omega)
  · -- all other slots untouched
    intro i h0 hN
    simp only [bfp_fft_unpack_mono, setIdx]
    split_ifs <;> first | rfl | (exfalso; omega)

/-- Witness for C5 on concrete packed/unpacked vectors. -/
theorem C5_pack_unpack_inverse_witness :
    (1 ≤ 2 ∧ 2 ≤ 3 ∧
     (((fun i => if i = 0 then ((5 : ℤ), (0 : ℤ)) else if i = 1 then (9, 11)
        else if i = 2 then (13, 0) else (0, 0)) : ℕ → ℤ × ℤ) 0).2 = 0 ∧
     (((fun i => if i = 0 then ((5 : ℤ), (0 : ℤ)) else if i = 1 then (9, 11)
        else if i = 2 then (13, 0) else (0, 0)) : ℕ → ℤ × ℤ) (3 - 1)).2 = 0) ∧
    (∀ i, i < 2 →
      (bfp_fft_pack_mono (bfp_fft_unpack_mono
        ⟨fun i => if i = 0 then (5, 7) else if i = 1 then (9, 11) else (0, 0),
         2, 3, 4⟩)).buf i =
      (⟨fun i => if i = 0 then (5, 7) else if i = 1 then (9, 11) else (0, 0),
        2, 3, 4⟩ : FftVec).buf i) :=
  ⟨⟨by decide, by decide, by decide, by decide⟩,
    (C5_pack_unpack_inverse
      ⟨fun i => if i = 0 then (5, 7) else if i = 1 then (9, 11) else (0, 0), 2, 3, 4⟩
      ⟨fun i => if i = 0 then (5, 0) else if i = 1 then (9, 11)
        else if i = 2 then (13, 0) else (0, 0), 3, 0, 1⟩
      (by decide) (by decide) (by decide) (by decide)).1.2.2.2⟩
